import Mathlib

/-!
Shallow embedding of the CovenantSQL block-producer control plane, written
from the Go sources of the repository:
  - blockproducer database service (`CreateDatabase`, `DropDatabase`,
    `allocateNodes`, `getMetric`, `buildPeers`, `generateDatabaseID`,
    `batchSendSvcReq`, `batchSendSingleSvcReq`, `peersToNodes`),
  - `blockproducer/interfaces/transaction_wrapper.go`
    (`CodecDecodeSelf`, `NewTransaction`),
  - `client/config.go` (`FormatDSN`, `ParseDSN`),
  - `rpc/client.go` (`dial`).

External collaborators (the consistent-hash ring, the node-metric map, the
kms key service, the network, the msgpack codec driver and the Go standard
library) are represented by explicit parameters or by small models of their
documented behaviour; each such model is marked in its doc comment.
Machine integers of the source (`uint64` metric values, `uint16` node
counts, the `Uint256` nonce) are modelled as `Nat`: none of the verified
paths can overflow them, and truncations that the source performs
explicitly (such as the 32-bit truncation of the transaction type tag) are
written as explicit `% 2 ^ 32`.

Goroutine fan-outs (`batchSendSingleSvcReq`) complete in a
scheduler-chosen order; that order is made explicit as the list of
per-call results in the order their goroutines send on the shared error
channel.  Likewise the iteration order of a Go `map` (the metric map in
`allocateNodes`) is made explicit as the order of an association list.
-/

deriving instance DecidableEq for Except

namespace CSQL

/-- Opaque error values of the embedding.  Named constructors mirror the
error variables of the source; `external` stands for an error produced by
a collaborator outside the embedded code (an rpc failure, a kms failure, a
signature failure, a codec type error), and `panicked` marks a Go runtime
panic (nil-pointer dereference or index out of range). -/
inductive Err where
  | errDatabaseAllocation
  | errMetricNotCollected
  | errNoSuchDatabase
  | errInvalidContainerType
  | errInvalidTransactionType
  | panicked
  | external (code : Nat)
deriving DecidableEq, Repr

/-- Server roles of `proto.ServerRole`. -/
inductive ServerRole where
  | leader
  | follower
  | miner
deriving DecidableEq, Repr

/-- A node descriptor as used by `allocateNodes`/`buildPeers`: only the
node identifier and the public key are read by the embedded code.
`proto.NodeID` is a string; the public key is opaque and modelled as a
`Nat`. -/
structure Node where
  id : String
  pubKey : Nat
deriving DecidableEq, Repr

/-- One metric family, restricted to what `getMetric` reads from it: its
type tag and the value of its first sample (`GetMetric()[0]`), with the
`float64` value already converted to a `uint64` byte count as the source
does.  Families whose type is neither gauge nor counter are `untyped`. -/
inductive MetricFamily where
  | gauge (value : Nat)
  | counter (value : Nat)
  | untyped
deriving DecidableEq, Repr

/-- `metric.MetricMap`: a map from metric key to family.  A `some none`
entry models a key that is present but holds a nil `*MetricFamily`
(the source checks `!ok || rawMetric == nil`). -/
abbrev MetricMap := List (String × Option MetricFamily)

/-- `MetricKeyFreeMemory` from the source: the free-memory metric keys
probed in order. -/
def MetricKeyFreeMemory : List String :=
  ["node_memory_free_bytes_total", "node_memory_MemFree_bytes"]

/-- `DBService.getMetric`: probe the keys in order; the first present,
non-nil family of gauge or counter type yields its value; any other family
falls through the `switch` and the loop continues; if no key yields a
value the call fails with `ErrMetricNotCollected`. -/
def getMetric (m : MetricMap) : List String → Except Err Nat
  | [] => .error .errMetricNotCollected
  | key :: rest =>
    match m.lookup key with
    | none => getMetric m rest
    | some none => getMetric m rest
    | some (some (.gauge v)) => .ok v
    | some (some (.counter v)) => .ok v
    | some (some .untyped) => getMetric m rest

/-- An entry of the `allocated` slice of `allocateNodes`. -/
structure AllocatedNode where
  nodeID : String
  memoryMetric : Nat
deriving DecidableEq, Repr

/-- The metric-filter loop of `allocateNodes` (lines 353-379): walk the
metric map in its (scheduler-chosen) iteration order; a candidate without
a readable free-memory metric is added to `excludeNodes`; a candidate with
`resourceMeta.Memory < metricValue` is appended to `allocated`; any other
candidate is added to `excludeNodes`. -/
def processCandidates (memory : Nat) :
    List (String × MetricMap) → List String → List AllocatedNode →
    List String × List AllocatedNode
  | [], excludeNodes, allocated => (excludeNodes, allocated)
  | (nodeID, nodeMetric) :: rest, excludeNodes, allocated =>
    match getMetric nodeMetric MetricKeyFreeMemory with
    | .error _ => processCandidates memory rest (nodeID :: excludeNodes) allocated
    | .ok metricValue =>
      if memory < metricValue then
        processCandidates memory rest excludeNodes (allocated ++ [⟨nodeID, metricValue⟩])
      else
        processCandidates memory rest (nodeID :: excludeNodes) allocated

/-- The projection of `processCandidates` to the accepted list: the
acceptance decision of the loop never reads the exclusion set, so the
accepted nodes are exactly these, in metric-map iteration order. -/
def acceptedNodes (memory : Nat) : List (String × MetricMap) → List AllocatedNode
  | [] => []
  | (nodeID, nodeMetric) :: rest =>
    match getMetric nodeMetric MetricKeyFreeMemory with
    | .error _ => acceptedNodes memory rest
    | .ok metricValue =>
      if memory < metricValue then
        ⟨nodeID, metricValue⟩ :: acceptedNodes memory rest
      else
        acceptedNodes memory rest

/-- A `kayak.Server`. -/
structure Server where
  role : ServerRole
  id : String
  pubKey : Nat
deriving DecidableEq, Repr

/-- `kayak.Peers`, restricted to the fields the embedded code constructs
and reads.  `Servers` entries are `Option Server` because the source
allocates the slice eagerly (`make([]*kayak.Server, len(allocated))`) and
can leave nil entries when fewer nodes are matched than allocated.  The
peers signature and signing key are produced by the external kms/crypto
collaborators and carry no information read by the embedded code. -/
structure Peers where
  term : Nat
  leader : Option Server
  servers : List (Option Server)
deriving DecidableEq, Repr

/-- `DBService.buildPeers` (lines 432-482).  The allocated node info is
recollected by filtering the ring result `nodes` by membership in the
`allocated` id list, thus in `nodes` order, not in `allocated` order.  The
servers slice has length `len(allocated)`; entries beyond the matched
nodes stay nil.  Writing past the end of the slice, or promoting a nil or
missing first entry to leader, panics in Go and is modelled as `none`. -/
def buildPeers (term : Nat) (nodes : List Node) (allocated : List String) :
    Option Peers :=
  let allocatedNodes := nodes.filter (fun node => decide (node.id ∈ allocated))
  if allocated.length < allocatedNodes.length then
    none
  else
    let servers : List (Option Server) :=
      allocatedNodes.map (fun node => some ⟨.follower, node.id, node.pubKey⟩)
        ++ List.replicate (allocated.length - allocatedNodes.length) none
    match servers with
    | some s :: rest =>
      let leaderServer : Server := { s with role := .leader }
      some ⟨term, some leaderServer, some leaderServer :: rest⟩
    | _ => none

/-- `wt.ResourceMeta`, restricted to the two dimensions `allocateNodes`
reads.  `Node` is a `uint16` in the source; the `resourceMeta.Node <= 0`
guard is the `= 0` test on `Nat`. -/
structure ResourceMeta where
  node : Nat
  memory : Nat
deriving DecidableEq, Repr

/-- The collaborators of `DBService` that `allocateNodes` consults, for a
fixed database id and role filter: the consistent-hash ring
(`Consistent.GetNeighborsEx`, whose ignored error return is dropped) as a
function from the requested range to the node list, and the node metric
map (`NodeMetricMap.GetMetrics`) as a function from the queried id list to
an association list in Go-map iteration order. -/
structure DBServiceEnv where
  allocationRounds : Nat
  includeBPNodesForAllocation : Bool
  bpNodes : List String
  getNeighbors : Nat → List Node
  getMetrics : List String → List (String × MetricMap)

/-- The round loop of `allocateNodes` (lines 314-401), returning the
result together with a trace of the ring queries: one `(range, passed)`
pair per executed round, where `passed` records whether the round got past
the `len(nodeIDs) < resourceMeta.Node` check into the metric phase.  The
`continue` of that check skips the `curRange += resourceMeta.Node`
statement at the bottom of the loop body, so a round that fails it leaves
the range unchanged.  The allocated slice is sorted with `sort.Slice` and
the comparator `allocated[i].MemoryMetric > allocated[j].MemoryMetric`;
on the sub-7-element slices reached in this development the 2018 Go
runtime sorts such a range by plain insertion sort, which is the stable
descending sort written here; on longer slices it still produces a
memory-descending permutation, which is all the general theorems use. -/
def allocRounds (s : DBServiceEnv) (memory nodeCount term : Nat) :
    Nat → Nat → List String → Except Err Peers × List (Nat × Bool)
  | 0, _, _ => (.error .errDatabaseAllocation, [])
  | roundsLeft + 1, curRange, excludeNodes =>
    let nodes := s.getNeighbors curRange
    let nodeIDs := (nodes.filter (fun n => decide (n.id ∉ excludeNodes))).map (·.id)
    if nodeIDs.length < nodeCount then
      let r := allocRounds s memory nodeCount term roundsLeft curRange excludeNodes
      (r.1, (curRange, false) :: r.2)
    else
      let metrics := s.getMetrics nodeIDs
      let pc := processCandidates memory metrics excludeNodes []
      if nodeCount ≤ pc.2.length then
        let sorted :=
          (pc.2.insertionSort (fun a b => b.memoryMetric ≤ a.memoryMetric)).take
            nodeCount
        let result : Except Err Peers :=
          match buildPeers term nodes (sorted.map (·.nodeID)) with
          | some peers => .ok peers
          | none => .error .panicked
        (result, [(curRange, true)])
      else
        let r :=
          allocRounds s memory nodeCount term roundsLeft (curRange + nodeCount) pc.1
        (r.1, (curRange, true) :: r.2)

/-- `DBService.allocateNodes` (lines 297-406): reject a zero node count,
seed the exclusion set with the block-producer nodes unless configured
otherwise, and run the rounds starting at `curRange = resourceMeta.Node`
with term `lastTerm + 1`. -/
def allocateNodes (s : DBServiceEnv) (lastTerm : Nat) (resourceMeta : ResourceMeta) :
    Except Err Peers × List (Nat × Bool) :=
  if resourceMeta.node = 0 then
    (.error .errDatabaseAllocation, [])
  else
    let excludeNodes := if s.includeBPNodesForAllocation then [] else s.bpNodes
    allocRounds s resourceMeta.memory resourceMeta.node (lastTerm + 1)
      s.allocationRounds resourceMeta.node excludeNodes

/-- `DBService.batchSendSingleSvcReq` (lines 521-539): fan one request out
to every node in parallel; each goroutine sends its `CallNode` result on a
buffered error channel; after all complete, a single receive takes the
FIRST value sent on the channel — the result of whichever call completed
first, not the first error.  `arrivals` is the list of per-call results in
channel (completion) order; an empty node list leaves the closed channel
empty, and the receive then yields the zero value nil.  The second
component records the targets the request was dispatched to. -/
def batchSendSingleSvcReq (nodes : List String) (arrivals : List (Option Err)) :
    Option Err × List String :=
  (match arrivals with
   | [] => none
   | e :: _ => e, nodes)

/-- `DBService.batchSendSvcReq` (lines 513-519): send the main request;
if that returned a non-nil error, fan the rollback request out to the same
node list, ignoring its result, and return the error.  The second
component is `some targets` when the rollback was fanned out. -/
def batchSendSvcReq (nodes : List String)
    (deployArrivals rollbackArrivals : List (Option Err)) :
    Option Err × Option (List String) :=
  match (batchSendSingleSvcReq nodes deployArrivals).1 with
  | some e =>
    (some e, some (batchSendSingleSvcReq nodes rollbackArrivals).2)
  | none => (none, none)

/-- `DBService.peersToNodes` (lines 541-553): a nil peers yields an empty
list; otherwise collect `s.ID` over `peers.Servers`.  Reading `.ID` of a
nil server panics in Go, modelled as `none`. -/
def peersToNodes : Option Peers → Option (List String)
  | none => some []
  | some peers => peers.servers.mapM (fun os => os.map (·.id))

/-- Outcomes of the collaborator calls made by `DropDatabase`, one field
per call site, in program order.  `signDropReq` is the result of
`dropDBSvcReq.Sign(privateKey)`; the source discards it. -/
structure DropEnv where
  verify : Option Err
  getInstancePeers : Except Err (Option Peers)
  getLocalPubKey : Option Err
  getLocalPrivKey : Option Err
  signDropReq : Option Err
  dropArrivals : List (Option Err)
  deleteResult : Option Err
deriving Repr

/-- Which externally visible steps `DropDatabase` performed. -/
structure DropTrace where
  fannedOut : Bool
  deleteReached : Bool
deriving DecidableEq, Repr

/-- `DBService.DropDatabase` (lines 159-209).  The statement
`if dropDBSvcReq.Sign(privateKey); err != nil { return }` evaluates `Sign`
for its side effect only: its return value is discarded, and the `err`
tested is the stale nil left by the successful `GetLocalPrivateKey`, so
the guard never fires and `signDropReq` does not influence the result.
The drop fan-out reuses `batchSendSvcReq` with a nil rollback request.
`none` marks a Go panic (nil server id inside `peersToNodes`). -/
def DropDatabase (env : DropEnv) : Option (Option Err × DropTrace) :=
  match env.verify with
  | some e => some (some e, ⟨false, false⟩)
  | none =>
    match env.getInstancePeers with
    | .error e => some (some e, ⟨false, false⟩)
    | .ok instancePeers =>
      match env.getLocalPubKey with
      | some e => some (some e, ⟨false, false⟩)
      | none =>
        match env.getLocalPrivKey with
        | some e => some (some e, ⟨false, false⟩)
        | none =>
          let staleErr : Option Err := none
          if staleErr.isSome then
            some (staleErr, ⟨false, false⟩)
          else
            match peersToNodes instancePeers with
            | none => none
            | some nodes =>
              match (batchSendSvcReq nodes env.dropArrivals []).1 with
              | some e => some (some e, ⟨true, false⟩)
              | none =>
                match env.deleteResult with
                | some e => some (some e, ⟨true, true⟩)
                | none => some (none, ⟨true, true⟩)

/-- The instance metadata a successful `CreateDatabase` stores and
returns. -/
structure ServiceInstance where
  databaseID : String
  peers : Peers
  resourceMeta : ResourceMeta
deriving DecidableEq, Repr

/-- Outcomes of the collaborator calls made by `CreateDatabase`, one field
per call site, in program order.  The database-id generation (mining plus
service-map probing, embedded separately as `generateDatabaseID`) enters
as its result. -/
structure CreateEnv where
  verify : Option Err
  generatedDBID : Except Err String
  svc : DBServiceEnv
  resourceMeta : ResourceMeta
  genesisBlock : Option Err
  getLocalPrivKey : Option Err
  signInitReq : Option Err
  signRollbackReq : Option Err
  deployArrivals : List (Option Err)
  rollbackArrivals : List (Option Err)
  serviceMapSet : Option Err
  signResp : Option Err

/-- `DBService.CreateDatabase` (lines 70-156): verify, mine a database id,
allocate nodes with `lastTerm = 0`, build the genesis block, sign the
deploy and rollback requests, fan the deploy out with rollback on error,
store the instance in the service map, and sign the response carrying the
instance.  `none` marks a Go panic. -/
def CreateDatabase (env : CreateEnv) : Option (Except Err ServiceInstance) :=
  match env.verify with
  | some e => some (.error e)
  | none =>
    match env.generatedDBID with
    | .error e => some (.error e)
    | .ok dbID =>
      match (allocateNodes env.svc 0 env.resourceMeta).1 with
      | .error e => some (.error e)
      | .ok peers =>
        match env.genesisBlock with
        | some e => some (.error e)
        | none =>
          match env.getLocalPrivKey with
          | some e => some (.error e)
          | none =>
            match env.signInitReq with
            | some e => some (.error e)
            | none =>
              match env.signRollbackReq with
              | some e => some (.error e)
              | none =>
                match peersToNodes (some peers) with
                | none => none
                | some nodes =>
                  match (batchSendSvcReq nodes env.deployArrivals
                      env.rollbackArrivals).1 with
                  | some e => some (.error e)
                  | none =>
                    match env.serviceMapSet with
                    | some e => some (.error e)
                    | none =>
                      match env.signResp with
                      | some e => some (.error e)
                      | none =>
                        some (.ok ⟨dbID, peers, env.resourceMeta⟩)

/-- Number of significant bits of a byte value (0 for 0). -/
def bitLen (b : Nat) : Nat :=
  if b = 0 then 0 else Nat.log2 b + 1

/-- Modelled from the spec: the difficulty measure of the domain hash
function (`pow/cpuminer` and `crypto/hash` are not under `src/`) — the
number of leading zero bits of a hash given as its byte sequence. -/
def leadingZeroBits : List Nat → Nat
  | [] => 0
  | b :: rest => if b = 0 then 8 + leadingZeroBits rest else 8 - bitLen b

/-- Modelled from the spec: the 32-byte little-endian encoding of a
`cpuminer.Uint256` nonce. -/
def nonceBytes (n : Nat) : List Nat :=
  (List.range 32).map (fun i => n / 256 ^ i % 256)

/-- Hex digit for a nibble. -/
def hexDigit (n : Nat) : Char :=
  if n < 10 then Char.ofNat (48 + n) else Char.ofNat (87 + n)

/-- Modelled from the spec: the hex display form of a hash
(`hash.Hash.String`, not under `src/`). -/
def hashToHex (h : List Nat) : String :=
  String.mk (h.foldr (fun b acc => hexDigit (b / 16) :: hexDigit (b % 16) :: acc) [])

/-- Modelled from the spec: `cpuminer.ComputeBlockNonce` (`pow/cpuminer`
is not under `src/`) — search nonces from `startNonce` upward and deliver
the first one whose hash over `data ‖ nonce_bytes` has at least
`difficulty` leading zero bits.  The search need not terminate, so it is
fuelled and returns `none` when the fuel runs out. -/
def computeBlockNonce (hashFn : List Nat → List Nat) (data : List Nat)
    (difficulty : Nat) : Nat → Nat → Option (Nat × List Nat)
  | 0, _ => none
  | fuel + 1, nonce =>
    let h := hashFn (data ++ nonceBytes nonce)
    if difficulty ≤ leadingZeroBits h then some (nonce, h)
    else computeBlockNonce hashFn data difficulty fuel (nonce + 1)

/-- `DBService.generateDatabaseID` (lines 265-295): mine a nonce over the
requester's raw node id at difficulty 4, take the hex of the hash as the
candidate id, and accept it only when the service-map lookup reports
`ErrNoSuchDatabase`; otherwise advance the start nonce past the found one
and mine again.  The service map (`DBServiceMap`, not under `src/`) is
modelled from the spec by its key set: a present key is found, an absent
key yields `ErrNoSuchDatabase`.  The retry loop is fuelled. -/
def generateDatabaseID (hashFn : List Nat → List Nat)
    (serviceMapKeys : List String) (reqNodeID : List Nat) (mineFuel : Nat) :
    Nat → Nat → Option String
  | 0, _ => none
  | fuel + 1, startNonce =>
    match computeBlockNonce hashFn reqNodeID 4 mineFuel startNonce with
    | none => none
    | some (nonce, h) =>
      let dbID := hashToHex h
      if decide (dbID ∈ serviceMapKeys) then
        generateDatabaseID hashFn serviceMapKeys reqNodeID mineFuel fuel (nonce + 1)
      else
        some dbID

/-- The collaborators of `rpc.dial`, one field per call site: the
`net.Dial` outcome, the kms local identity lookups, the 32 raw bytes of
`kms.AnonymousRawNodeID`, and the socket write as the pair of bytes
written and error returned. -/
structure DialEnv where
  connect : Option Err
  localNodeIDBytes : Except Err (List Nat)
  localNonce : Except Err (List Nat)
  anonymousRawNodeID : List Nat
  write : List Nat → Nat × Option Err

/-- The `etls.CryptoConn` returned by a successful dial, reduced to the
marker the embedded code produces (`etls.NewConn(conn, cipher,
remoteNodeID)`); the cipher itself is an external collaborator. -/
structure CryptoConn where
  remoteNodeID : String
deriving DecidableEq, Repr

/-- The 64-byte connection prelude `dial` writes (lines 62-80):
`LocalNodeID ‖ LocalPoWNonce`, or `AnonymousRawNodeID ‖ Zero[32]` in
anonymous mode (`(&cpuminer.Uint256{}).Bytes()` is 32 zero bytes). -/
def dialWriteBuf (env : DialEnv) (isAnonymous : Bool) : Except Err (List Nat) :=
  if isAnonymous then
    .ok (env.anonymousRawNodeID ++ List.replicate 32 0)
  else
    match env.localNodeIDBytes with
    | .error e => .error e
    | .ok nodeIDBytes =>
      match env.localNonce with
      | .error e => .error e
      | .ok nonce => .ok (nodeIDBytes ++ nonce)

/-- `rpc.dial` (lines 56-89): connect, build the prelude, write it, and
return an error without a connection unless the write reported no error
and wrote exactly the whole prelude; only then wrap the socket in the
cipher and return the encrypted connection. -/
def dial (env : DialEnv) (remoteNodeID : String) (isAnonymous : Bool) :
    Option CryptoConn × Option Err :=
  match env.connect with
  | some e => (none, some e)
  | none =>
    match dialWriteBuf env isAnonymous with
    | .error e => (none, some e)
    | .ok writeBuf =>
      let wr := env.write writeBuf
      if wr.2.isSome ∨ wr.1 ≠ writeBuf.length then (none, wr.2)
      else (some ⟨remoteNodeID⟩, none)

/-- `client.Config`, holding only the database id.  Go strings are
embedded as `List Char` so that the string manipulation of the DSN
functions can be reasoned about structurally. -/
structure Config where
  databaseID : List Char
deriving DecidableEq, Repr

/-- Modelled from the spec: the `client` package constant `DBScheme`
(defined outside `src/`); scenario S4 fixes the scheme as
`covenantsql`. -/
def DBScheme : List Char := "covenantsql".toList

/-- Modelled from the spec: the `client` package constant `DBSchemeAlias`
(defined outside `src/`).  It only occurs in a prefix disjunction that the
primary scheme already satisfies for every claim considered here. -/
def DBSchemeAlias : List Char := "cql".toList

/-- Modelled from the Go standard library (external to the repository):
`url.URL.String` for a URL carrying only a scheme and a host made of
unreserved characters (every hex database id), which such a URL prints
verbatim: `scheme:` then `//host` when the host is nonempty. -/
def urlString (scheme host : List Char) : List Char :=
  (if scheme.isEmpty then [] else scheme ++ [':'])
    ++ (if host.isEmpty then [] else '/' :: '/' :: host)

/-- `client.Config.FormatDSN` (config.go lines 39-51): print the URL with
scheme `DBScheme` and the database id as host; the query of the fresh URL
encodes to the empty string. -/
def FormatDSN (cfg : Config) : List Char :=
  urlString DBScheme cfg.databaseID

/-- Modelled from the Go standard library (external to the repository):
`url.Parse` restricted to the shapes `ParseDSN` feeds it — an authority
without userinfo, port or percent-escapes.  The scheme is everything
before the first `:`, and when `//` follows, the host extends to the next
`/`, `?` or `#`; a URL without `//` has an empty host. -/
def urlParseHost (s : List Char) : List Char :=
  match s.dropWhile (· ≠ ':') with
  | ':' :: '/' :: '/' :: rest =>
    rest.takeWhile (fun c => decide (c ≠ '/') && decide (c ≠ '?') && decide (c ≠ '#'))
  | _ => []

/-- `client.ParseDSN` (config.go lines 54-68): prepend `DBScheme ++ "://"`
unless the string already starts with `DBScheme` or `DBSchemeAlias`, parse
it as a URL and take the host as the database id. -/
def ParseDSN (dsn : List Char) : Config :=
  let dsn :=
    if ¬ DBScheme.isPrefixOf dsn ∧ ¬ DBSchemeAlias.isPrefixOf dsn then
      DBScheme ++ ':' :: '/' :: '/' :: dsn
    else dsn
  ⟨urlParseHost dsn⟩

/-- A decoded msgpack value, as the codec decode driver classifies it:
nil, an unsigned integer, a string, an array, or any other container
(maps, floats, ...), which the embedded code never inspects further. -/
inductive MsgVal where
  | nil
  | uint (n : Nat)
  | str (s : String)
  | arr (elems : List MsgVal)
  | otherContainer

/-- A transaction instance as the registry produces it: its 32-bit type
tag and its fields.  A freshly instantiated (`reflect.New`) value has
zero-valued fields, written `none`; decoding a body into it records the
body value. -/
structure TxInstance where
  txType : Nat
  body : Option MsgVal

/-- `interfaces.NewTransaction` (transaction_wrapper.go lines 142-169):
an unregistered tag fails with (a wrap of) `ErrInvalidTransactionType`; a
registered tag yields a fresh zero-valued instance.  The registry is the
set of registered tags; `RegisterTransaction` refuses nil and wrapper
types at registration time, so every registered tag instantiates. -/
def NewTransaction (registry : List Nat) (t : Nat) : Except Err TxInstance :=
  if t ∈ registry then .ok ⟨t, none⟩
  else .error .errInvalidTransactionType

/-- `TransactionWrapper.CodecDecodeSelf` (transaction_wrapper.go lines
84-125) on a decoded envelope value: a non-array container panics with
`ErrInvalidContainerType` (the check is on the container TYPE only, not on
its length); element 0 decoding as nil panics with
`ErrInvalidTransactionType`, otherwise it is read as a uint truncated to
32 bits (`UintV(..., 32)`) and instantiated through `NewTransaction`; a
nil or missing element 1 leaves the fresh instance untouched, any other
element 1 is decoded into it; elements at index 2 and beyond are skipped
(`DecStructFieldNotFound`).  An empty array leaves the wrapper's nil
transaction in place.  A non-integer element 0 makes the codec driver's
`DecodeUint64` fail with its own type error, modelled as `external 0`. -/
def CodecDecodeSelf (registry : List Nat) (v : MsgVal) :
    Except Err (Option TxInstance) :=
  match v with
  | .arr elems =>
    match elems with
    | [] => .ok none
    | e0 :: rest =>
      match e0 with
      | .nil => .error .errInvalidTransactionType
      | .uint t =>
        match NewTransaction registry (t % 2 ^ 32) with
        | .error e => .error e
        | .ok tx =>
          match rest with
          | [] => .ok (some tx)
          | .nil :: _ => .ok (some tx)
          | e1 :: _ => .ok (some { tx with body := some e1 })
      | _ => .error (.external 0)
  | _ => .error .errInvalidContainerType

/-! Theorems. -/

/-- C1, counterexample: two targets whose deploy calls complete in the
order nil-then-error.  `batchSendSvcReq` receives only the first value
sent on the error channel, so it reports no error and fans out no
rollback, although a target returned a non-nil error — the claim demands
a rollback fan-out and a non-nil return here. -/
theorem c1_counterexample_late_error_swallowed :
    batchSendSvcReq ["minerA", "minerB"] [none, some (.external 7)] [none, none]
        = (none, none)
    ∧ some (Err.external 7) ∈ [none, some (Err.external 7)] := by
  decide

/-- C1, amended: the deploy fan-out returns the FIRST-COMPLETED call's
result (nil when there is no target), the `DropDB` rollback is fanned out
to the full target set exactly when that first-completed result is
non-nil, and errors of later-completing targets are discarded; in
particular, when every target returns nil, no rollback is sent and nil is
returned. -/
theorem c1_fanout_first_arrival (nodes : List String)
    (deployArrivals rollbackArrivals : List (Option Err)) :
    (batchSendSvcReq nodes deployArrivals rollbackArrivals).1
        = deployArrivals.head?.getD none
    ∧ ((batchSendSvcReq nodes deployArrivals rollbackArrivals).2
        = if (deployArrivals.head?.getD none).isSome then some nodes else none)
    ∧ ((∀ r ∈ deployArrivals, r = none) →
        batchSendSvcReq nodes deployArrivals rollbackArrivals = (none, none)) := by
  match deployArrivals with
  | [] => exact ⟨rfl, rfl, fun _ => rfl⟩
  | none :: t => exact ⟨rfl, rfl, fun _ => rfl⟩
  | some e :: t =>
    refine ⟨rfl, rfl, fun h => absurd (h (some e) (by simp)) (by simp)⟩

/-- C1 witness: a one-target fan-out whose only call returns nil yields
nil and no rollback. -/
theorem c1_fanout_first_arrival_witness :
    batchSendSvcReq ["minerA"] [none] [none] = (none, none) :=
  (c1_fanout_first_arrival ["minerA"] [none] [none]).2.2 (by decide)

/-- C3, counterexample: a candidate whose free-memory metric EQUALS the
requested `ResourceMeta.Memory` (both 5) is excluded and not accepted —
the claim says a metric greater than or equal to the requirement is
accepted.  The source accepts only `resourceMeta.Memory < metricValue`. -/
theorem c3_counterexample_equal_memory_excluded :
    (processCandidates 5 [("n1", [("node_memory_MemFree_bytes", some (.gauge 5))])]
        [] []).2 = []
    ∧ "n1" ∈ (processCandidates 5
        [("n1", [("node_memory_MemFree_bytes", some (.gauge 5))])] [] []).1 := by
  decide

/-- Exclusions persist through the rest of the metric loop: the exclusion
set is only ever added to. -/
theorem processCandidates_excl_mono (memory : Nat) :
    ∀ (ms : List (String × MetricMap)) (excludeNodes : List String)
      (allocated : List AllocatedNode) (x : String), x ∈ excludeNodes →
      x ∈ (processCandidates memory ms excludeNodes allocated).1
  | [], _, _, _, hx => hx
  | (nodeID, nodeMetric) :: rest, excl, alloc, x, hx => by
    unfold processCandidates
    match getMetric nodeMetric MetricKeyFreeMemory with
    | .error e =>
      exact processCandidates_excl_mono memory rest _ _ x (List.mem_cons_of_mem _ hx)
    | .ok v =>
      by_cases hlt : memory < v
      · simpa [hlt] using processCandidates_excl_mono memory rest excl _ x hx
      · simpa [hlt] using
          processCandidates_excl_mono memory rest _ alloc x (List.mem_cons_of_mem _ hx)

/-- Unfolding equation for one step of the metric loop. -/
theorem processCandidates_cons (memory : Nat) (nodeID : String) (m : MetricMap)
    (rest : List (String × MetricMap)) (excl : List String)
    (alloc : List AllocatedNode) :
    processCandidates memory ((nodeID, m) :: rest) excl alloc
      = match getMetric m MetricKeyFreeMemory with
        | .error _ => processCandidates memory rest (nodeID :: excl) alloc
        | .ok v =>
          if memory < v then processCandidates memory rest excl (alloc ++ [⟨nodeID, v⟩])
          else processCandidates memory rest (nodeID :: excl) alloc := rfl

/-- C3, amended: during one allocation call each candidate is handled
thus — no readable free-memory key present means permanent exclusion; a
metric value less than OR EQUAL to `ResourceMeta.Memory` means permanent
exclusion; only a value strictly greater than `ResourceMeta.Memory` is
recorded as accepted with the free-memory value; and every exclusion
persists through the rest of the call. -/
theorem c3_metric_gate (memory : Nat) (nodeID : String) (m : MetricMap)
    (rest : List (String × MetricMap)) (excludeNodes : List String)
    (allocated : List AllocatedNode) :
    ((∀ key ∈ MetricKeyFreeMemory, m.lookup key = none) →
      processCandidates memory ((nodeID, m) :: rest) excludeNodes allocated
        = processCandidates memory rest (nodeID :: excludeNodes) allocated)
    ∧ (∀ v, getMetric m MetricKeyFreeMemory = .ok v → v ≤ memory →
      processCandidates memory ((nodeID, m) :: rest) excludeNodes allocated
        = processCandidates memory rest (nodeID :: excludeNodes) allocated)
    ∧ (∀ v, getMetric m MetricKeyFreeMemory = .ok v → memory < v →
      processCandidates memory ((nodeID, m) :: rest) excludeNodes allocated
        = processCandidates memory rest excludeNodes (allocated ++ [⟨nodeID, v⟩]))
    ∧ (∀ x ∈ excludeNodes,
      x ∈ (processCandidates memory ((nodeID, m) :: rest) excludeNodes allocated).1) := by
  refine ⟨fun hnone => ?_, fun v hv hle => ?_, fun v hv hlt => ?_, fun x hx => ?_⟩
  · have h1 := hnone "node_memory_free_bytes_total" (by decide)
    have h2 := hnone "node_memory_MemFree_bytes" (by decide)
    have hget : getMetric m MetricKeyFreeMemory = .error .errMetricNotCollected := by
      simp [getMetric, MetricKeyFreeMemory, h1, h2]
    simp only [processCandidates_cons, hget]
  · simp only [processCandidates_cons, hv]
    rw [if_neg (Nat.not_lt.mpr hle)]
  · simp only [processCandidates_cons, hv]
    rw [if_pos hlt]
  · exact processCandidates_excl_mono memory _ _ _ x hx

/-- C3 witness: a candidate with metric value 7 against requirement 5 is
accepted; one with value 5 is excluded; one with no key is excluded. -/
theorem c3_metric_gate_witness :
    processCandidates 5 [("n1", [("node_memory_MemFree_bytes", some (.gauge 7))])] [] []
        = ([], [⟨"n1", 7⟩])
    ∧ processCandidates 5 [("n2", [("node_memory_MemFree_bytes", some (.gauge 5))])] [] []
        = (["n2"], [])
    ∧ processCandidates 5 [("n3", [])] [] [] = (["n3"], []) := by
  refine ⟨?_, ?_, ?_⟩
  · exact (c3_metric_gate 5 "n1" [("node_memory_MemFree_bytes", some (.gauge 7))]
      [] [] []).2.2.1 7 rfl (by decide)
  · exact (c3_metric_gate 5 "n2" [("node_memory_MemFree_bytes", some (.gauge 5))]
      [] [] []).2.1 5 rfl (by decide)
  · exact (c3_metric_gate 5 "n3" [] [] [] []).1 (by decide)

/-- An allocation environment whose ring never returns any node, with the
default three allocation rounds (`DefaultAllocationRounds`). -/
def envNoNeighbors : DBServiceEnv where
  allocationRounds := 3
  includeBPNodesForAllocation := false
  bpNodes := []
  getNeighbors := fun _ => []
  getMetrics := fun _ => []

/-- C6, counterexample: with `N = 1` and a ring that returns no nodes,
every round fails the candidate-count check, whose `continue` skips the
`curRange += N` statement — all three rounds query range 1, not
`N·(r+1) = 1, 2, 3` as the claim asserts. -/
theorem c6_counterexample_range_stalls :
    (allocateNodes envNoNeighbors 0 ⟨1, 0⟩).2 = [(1, false), (1, false), (1, false)]
    ∧ ¬ (∀ p ∈ (allocateNodes envNoNeighbors 0 ⟨1, 0⟩).2.enum,
          p.2.1 = 1 * (p.1 + 1)) := by
  decide

/-- The first entry of the round trace records the starting range. -/
theorem allocRounds_trace_head (s : DBServiceEnv) (memory nodeCount term : Nat)
    (roundsLeft curRange : Nat) (excl : List String) (h : roundsLeft ≠ 0) :
    ((allocRounds s memory nodeCount term roundsLeft curRange excl).2.head?).map
        Prod.fst = some curRange := by
  match roundsLeft with
  | 0 => exact absurd rfl h
  | r + 1 =>
    simp only [allocRounds]
    split
    · simp
    · split
      · simp
      · simp

/-- Adjacent trace entries: the next round's range equals the previous
round's range, increased by `nodeCount` exactly when the previous round
got past the candidate-count check. -/
theorem allocRounds_trace_chain (s : DBServiceEnv) (memory nodeCount term : Nat) :
    ∀ (roundsLeft curRange : Nat) (excl : List String),
      List.Chain' (fun p q => q.1 = p.1 + (if p.2 then nodeCount else 0))
        (allocRounds s memory nodeCount term roundsLeft curRange excl).2
  | 0, curRange, excl => by simp [allocRounds]
  | roundsLeft + 1, curRange, excl => by
    simp only [allocRounds]
    split
    case isTrue h1 =>
      rw [List.chain'_cons']
      refine ⟨fun b hb => ?_,
        allocRounds_trace_chain s memory nodeCount term roundsLeft curRange excl⟩
      match roundsLeft with
      | 0 => simp [allocRounds] at hb
      | r + 1 =>
        have hd := allocRounds_trace_head s memory nodeCount term (r + 1)
          curRange excl (Nat.succ_ne_zero r)
        rw [Option.mem_def] at hb
        rw [hb] at hd
        simp at hd ⊢
        exact hd
    case isFalse h1 =>
      split
      case isTrue h2 => simp
      case isFalse h2 =>
        rw [List.chain'_cons']
        refine ⟨fun b hb => ?_,
          allocRounds_trace_chain s memory nodeCount term roundsLeft
            (curRange + nodeCount)
            (processCandidates memory
              (s.getMetrics (((s.getNeighbors curRange).filter
                (fun n => decide (n.id ∉ excl))).map (·.id))) excl []).1⟩
        match roundsLeft with
        | 0 => simp [allocRounds] at hb
        | r + 1 =>
          have hd := allocRounds_trace_head s memory nodeCount term (r + 1)
            (curRange + nodeCount)
            (processCandidates memory
              (s.getMetrics (((s.getNeighbors curRange).filter
                (fun n => decide (n.id ∉ excl))).map (·.id))) excl []).1
            (Nat.succ_ne_zero r)
          rw [Option.mem_def] at hb
          rw [hb] at hd
          simp at hd ⊢
          exact hd

/-- C6, amended: the first ring query of an allocation call asks for
`N = ResourceMeta.Node` nodes, and each later round's range equals the
previous round's range plus `N` when that round got past the
candidate-count check into the metric phase, and is UNCHANGED when the
round failed the candidate-count check (whose `continue` skips the range
growth). -/
theorem c6_range_growth (s : DBServiceEnv) (lastTerm : Nat) (rm : ResourceMeta)
    (hnode : rm.node ≠ 0) (hrounds : s.allocationRounds ≠ 0) :
    ((allocateNodes s lastTerm rm).2.head?).map Prod.fst = some rm.node
    ∧ List.Chain' (fun p q => q.1 = p.1 + (if p.2 then rm.node else 0))
        (allocateNodes s lastTerm rm).2 := by
  unfold allocateNodes
  rw [if_neg hnode]
  exact ⟨allocRounds_trace_head s rm.memory rm.node (lastTerm + 1)
      s.allocationRounds rm.node _ hrounds,
    allocRounds_trace_chain s rm.memory rm.node (lastTerm + 1)
      s.allocationRounds rm.node _⟩

/-- C6 witness: in the no-neighbor environment with `N = 1` the first
query has range 1 and the whole trace obeys the growth law. -/
theorem c6_range_growth_witness :
    ((allocateNodes envNoNeighbors 0 ⟨1, 0⟩).2.head?).map Prod.fst = some 1
    ∧ List.Chain' (fun p q => q.1 = p.1 + (if p.2 then 1 else 0))
        (allocateNodes envNoNeighbors 0 ⟨1, 0⟩).2 :=
  c6_range_growth envNoNeighbors 0 ⟨1, 0⟩ (by decide) (by decide)

/-- C7, counterexample: the envelope `[7]` with tag 7 registered is an
array of ONE element, not a 2-element array, yet decoding does not fail
with `InvalidContainerType` — the source checks only the container type,
not its length — and instead yields the fresh zero-valued instance. -/
theorem c7_counterexample_one_element_array :
    CodecDecodeSelf [7] (.arr [.uint 7]) = .ok (some ⟨7, none⟩)
    ∧ CodecDecodeSelf [7] (.arr [.uint 7]) ≠ .error .errInvalidContainerType
    ∧ [MsgVal.uint 7].length ≠ 2 := by
  refine ⟨rfl, fun h => ?_, by decide⟩
  rw [show CodecDecodeSelf [7] (.arr [.uint 7]) = .ok (some ⟨7, none⟩) from rfl] at h
  exact nomatch h

/-- Unfolding equation for decoding an envelope whose first element is an
integer tag. -/
theorem codecDecodeSelf_uint_cons (registry : List Nat) (t : Nat)
    (rest : List MsgVal) :
    CodecDecodeSelf registry (.arr (.uint t :: rest))
      = match NewTransaction registry (t % 2 ^ 32) with
        | .error e => .error e
        | .ok tx =>
          match rest with
          | [] => .ok (some tx)
          | .nil :: _ => .ok (some tx)
          | e1 :: _ => .ok (some { tx with body := some e1 }) := rfl

/-- C7, amended: decoding fails with `InvalidContainerType` exactly when
the outer container is not an array (of whatever length); an array whose
first element is nil or an unregistered (32-bit-truncated) tag fails with
`InvalidTransactionType`; and the one-element envelope `[tag]` with a
registered tag yields the registered instance with zero-valued fields. -/
theorem c7_decode_envelope (registry : List Nat) (v : MsgVal) (t : Nat)
    (rest : List MsgVal) :
    ((∀ elems, v ≠ .arr elems) →
      CodecDecodeSelf registry v = .error .errInvalidContainerType)
    ∧ CodecDecodeSelf registry (.arr (.nil :: rest))
        = .error .errInvalidTransactionType
    ∧ (t % 2 ^ 32 ∉ registry →
      CodecDecodeSelf registry (.arr (.uint t :: rest))
        = .error .errInvalidTransactionType)
    ∧ (t % 2 ^ 32 ∈ registry →
      CodecDecodeSelf registry (.arr [.uint t])
        = .ok (some ⟨t % 2 ^ 32, none⟩)) := by
  refine ⟨fun hne => ?_, rfl, fun hnr => ?_, fun hr => ?_⟩
  · cases v with
    | nil => rfl
    | uint n => rfl
    | str s => rfl
    | arr elems => exact absurd rfl (hne elems)
    | otherContainer => rfl
  · have hnr' : t % 4294967296 ∉ registry := by simpa using hnr
    simp [codecDecodeSelf_uint_cons, NewTransaction, hnr']
  · simp only [codecDecodeSelf_uint_cons, NewTransaction, if_pos hr]

/-- C7 witness: a non-array envelope, the envelope `[99, 1]` with only
tag 7 registered, and the envelope `[7]`, decoded concretely. -/
theorem c7_decode_envelope_witness :
    CodecDecodeSelf [7] .otherContainer = .error .errInvalidContainerType
    ∧ CodecDecodeSelf [7] (.arr [.uint 99, .uint 1])
        = .error .errInvalidTransactionType
    ∧ CodecDecodeSelf [7] (.arr [.uint 7]) = .ok (some ⟨7, none⟩) := by
  refine ⟨?_, ?_, ?_⟩
  · exact (c7_decode_envelope [7] .otherContainer 99 [.uint 1]).1
      (fun elems h => nomatch h)
  · exact (c7_decode_envelope [7] .otherContainer 99 [.uint 1]).2.2.1 (by decide)
  · have h := (c7_decode_envelope [7] .otherContainer 7 []).2.2.2 (by decide)
    simpa using h

/-- C10: the result of signing the `DropDB` fan-out request is discarded
— `DropDatabase` is insensitive to it — and when every other step
succeeds the fan-out to the instance's peers and the service-map deletion
both proceed and `DropDatabase` returns nil even though signing failed
(the guard after `Sign` re-checks the stale nil error left by
`GetLocalPrivateKey`). -/
theorem c10_sign_result_discarded (env : DropEnv) :
    (∀ e, DropDatabase { env with signDropReq := some e }
        = DropDatabase { env with signDropReq := none })
    ∧ (env.verify = none →
      ∀ p, env.getInstancePeers = .ok p →
      env.getLocalPubKey = none →
      env.getLocalPrivKey = none →
      ∀ nodes, peersToNodes p = some nodes →
      (∀ r ∈ env.dropArrivals, r = none) →
      env.deleteResult = none →
      DropDatabase env = some (none, ⟨true, true⟩)) := by
  constructor
  · intro e
    rfl
  · intro hv p hp hpub hpriv nodes hn harr hdel
    have hb : (batchSendSvcReq nodes env.dropArrivals []).1 = none := by
      match harrs : env.dropArrivals, harr with
      | [], _ => rfl
      | none :: t, _ => rfl
      | some e :: t, h => exact absurd (h (some e) (by simp)) (by simp)
    simp only [DropDatabase, hv, hp, hpub, hpriv, hn, hb, hdel]
    rfl

/-- The drop environment of the C10 witness: everything succeeds except
the discarded signing step. -/
def dropEnvW : DropEnv where
  verify := none
  getInstancePeers := .ok (some ⟨3, some ⟨.leader, "m1", 0⟩, [some ⟨.leader, "m1", 0⟩]⟩)
  getLocalPubKey := none
  getLocalPrivKey := none
  signDropReq := some (.external 9)
  dropArrivals := [none]
  deleteResult := none

/-- C10 witness: in `dropEnvW` the signing of the drop request failed,
yet `DropDatabase` fans out, deletes and returns nil. -/
theorem c10_sign_result_discarded_witness :
    DropDatabase dropEnvW = some (none, ⟨true, true⟩) :=
  (c10_sign_result_discarded dropEnvW).2 rfl
    (some ⟨3, some ⟨.leader, "m1", 0⟩, [some ⟨.leader, "m1", 0⟩]⟩) rfl rfl rfl
    ["m1"] rfl (by decide) rfl

/-- C8: under the `io.Writer` contract of the socket (a short write
carries a non-nil error, and never more bytes than requested are
reported) and the kms contract that node ids and nonces are 32 bytes, the
prelude is exactly 64 bytes; a partial prelude write makes `dial` fail
with an error and return no connection; and a connection is returned only
when the write reported no error and exactly the whole 64-byte prelude
written, in which case the socket is wrapped with the cipher. -/
theorem c8_dial_prelude_gate (env : DialEnv) (remoteNodeID : String)
    (isAnonymous : Bool)
    (hwlen : ∀ buf, (env.write buf).1 ≤ buf.length)
    (hwerr : ∀ buf, (env.write buf).1 < buf.length → (env.write buf).2 ≠ none)
    (hid : ∀ b, env.localNodeIDBytes = .ok b → b.length = 32)
    (hnonce : ∀ b, env.localNonce = .ok b → b.length = 32)
    (hanon : env.anonymousRawNodeID.length = 32) :
    (∀ buf, dialWriteBuf env isAnonymous = .ok buf → buf.length = 64)
    ∧ (env.connect = none →
      ∀ buf, dialWriteBuf env isAnonymous = .ok buf →
      (env.write buf).1 ≠ 64 →
      ∃ e, dial env remoteNodeID isAnonymous = (none, some e))
    ∧ (∀ c oe, dial env remoteNodeID isAnonymous = (some c, oe) →
      oe = none ∧ c = ⟨remoteNodeID⟩ ∧ ∃ buf, dialWriteBuf env isAnonymous = .ok buf
        ∧ (env.write buf).1 = 64 ∧ (env.write buf).2 = none) := by
  have hlen : ∀ buf, dialWriteBuf env isAnonymous = .ok buf → buf.length = 64 := by
    intro buf hbuf
    cases isAnonymous with
    | true =>
      simp only [dialWriteBuf, if_true] at hbuf
      rw [Except.ok.injEq] at hbuf
      rw [← hbuf]
      simp [hanon]
    | false =>
      simp only [dialWriteBuf, Bool.false_eq_true, if_false] at hbuf
      cases hids : env.localNodeIDBytes with
      | error e => rw [hids] at hbuf; exact absurd hbuf (by simp)
      | ok b =>
        rw [hids] at hbuf
        cases hns : env.localNonce with
        | error e => rw [hns] at hbuf; exact absurd hbuf (by simp)
        | ok nn =>
          rw [hns, Except.ok.injEq] at hbuf
          rw [← hbuf]
          simp [hid b hids, hnonce nn hns]
  refine ⟨hlen, fun hconn buf hbuf hw64 => ?_, fun c oe hres => ?_⟩
  · have h64 := hlen buf hbuf
    have hlt : (env.write buf).1 < buf.length := by
      have := hwlen buf
      omega
    obtain ⟨e, he⟩ := Option.ne_none_iff_exists'.mp (hwerr buf hlt)
    refine ⟨e, ?_⟩
    simp only [dial, hconn, hbuf, he]
    simp
  · cases hc : env.connect with
    | some e =>
      rw [show dial env remoteNodeID isAnonymous = (none, some e) by
        simp only [dial, hc]] at hres
      exact absurd hres (by simp)
    | none =>
      cases hwb : dialWriteBuf env isAnonymous with
      | error e =>
        rw [show dial env remoteNodeID isAnonymous = (none, some e) by
          simp only [dial, hc, hwb]] at hres
        exact absurd hres (by simp)
      | ok buf =>
        by_cases hcond :
            (env.write buf).2.isSome = true ∨ (env.write buf).1 ≠ buf.length
        · rw [show dial env remoteNodeID isAnonymous = (none, (env.write buf).2) by
            simp only [dial, hc, hwb, if_pos hcond]] at hres
          exact absurd hres (by simp)
        · rw [show dial env remoteNodeID isAnonymous
              = (some ⟨remoteNodeID⟩, none) by
            simp only [dial, hc, hwb, if_neg hcond]] at hres
          push_neg at hcond
          have hw2 : (env.write buf).2 = none := by
            cases hopt : (env.write buf).2 with
            | none => rfl
            | some e =>
              have h1 := hcond.1
              rw [hopt] at h1
              simp at h1
          have hw1 : (env.write buf).1 = 64 := by
            rw [hcond.2, hlen buf hwb]
          rw [Prod.mk.injEq] at hres
          exact ⟨hres.2.symm, (Option.some_inj.mp hres.1).symm,
            buf, rfl, hw1, hw2⟩

/-- The dial environment of the C8 witness: the socket accepts at most 10
bytes of any buffer and reports an error alongside the short write, as
the `io.Writer` contract requires. -/
def dialEnvShort : DialEnv where
  connect := none
  localNodeIDBytes := .ok (List.replicate 32 1)
  localNonce := .ok (List.replicate 32 2)
  anonymousRawNodeID := List.replicate 32 0
  write := fun buf => (min 10 buf.length, some (.external 1))

/-- C8 witness: the partial prelude write makes the dial fail with an
error and return no connection. -/
theorem c8_dial_prelude_gate_witness :
    ∃ e, dial dialEnvShort "remote" false = (none, some e) :=
  (c8_dial_prelude_gate dialEnvShort "remote" false
      (fun buf => by simp [dialEnvShort])
      (fun buf _ => by simp [dialEnvShort])
      (fun b hb => by
        rw [show dialEnvShort.localNodeIDBytes = .ok (List.replicate 32 1) from rfl,
          Except.ok.injEq] at hb
        rw [← hb]
        simp)
      (fun b hb => by
        rw [show dialEnvShort.localNonce = .ok (List.replicate 32 2) from rfl,
          Except.ok.injEq] at hb
        rw [← hb]
        simp)
      (by simp [dialEnvShort])).2.1 rfl
    (List.replicate 32 1 ++ List.replicate 32 2) rfl
    (by simp [dialEnvShort])

/-- Hex digits, upper or lower case. -/
def isHexChar (c : Char) : Bool :=
  decide (('0' ≤ c ∧ c ≤ '9') ∨ ('a' ≤ c ∧ c ≤ 'f') ∨ ('A' ≤ c ∧ c ≤ 'F'))

/-- A hex digit is none of the characters the DSN parser splits on. -/
theorem isHexChar_ne (c : Char) (h : isHexChar c = true) :
    c ≠ ':' ∧ c ≠ '/' ∧ c ≠ '?' ∧ c ≠ '#' := by
  refine ⟨?_, ?_, ?_, ?_⟩ <;> intro he <;> subst he <;> exact absurd h (by decide)

/-- C9: formatting a config whose database id is a nonempty hex string
and parsing it back returns the original config; in particular the
config with id `abc123` formats to `covenantsql://abc123`, and parsing
`covenantsql://abc123` yields the config with id `abc123`. -/
theorem c9_dsn_roundtrip (cfg : Config) (hne : cfg.databaseID ≠ [])
    (hhex : ∀ c ∈ cfg.databaseID, isHexChar c = true) :
    ParseDSN (FormatDSN cfg) = cfg
    ∧ FormatDSN ⟨"abc123".toList⟩ = "covenantsql://abc123".toList
    ∧ ParseDSN ("covenantsql://abc123".toList) = ⟨"abc123".toList⟩ := by
  refine ⟨?_, by decide, by decide⟩
  have hfmt : FormatDSN cfg = DBScheme ++ ':' :: '/' :: '/' :: cfg.databaseID := by
    unfold FormatDSN urlString
    rw [if_neg (by decide), if_neg (by simpa [List.isEmpty_iff] using hne)]
    simp
  rw [hfmt]
  unfold ParseDSN
  rw [if_neg (by
    intro hcontra
    exact hcontra.1 (List.isPrefixOf_iff_prefix.mpr (List.prefix_append _ _)))]
  have hdrop : (DBScheme ++ ':' :: '/' :: '/' :: cfg.databaseID).dropWhile
      (fun c => decide (c ≠ ':')) = ':' :: '/' :: '/' :: cfg.databaseID := by
    rw [List.dropWhile_append]
    rw [show DBScheme.dropWhile (fun c => decide (c ≠ ':')) = [] by decide]
    simp
  unfold urlParseHost
  simp only [hdrop]
  have htake : cfg.databaseID.takeWhile
      (fun c => decide (c ≠ '/') && decide (c ≠ '?') && decide (c ≠ '#'))
        = cfg.databaseID := by
    rw [List.takeWhile_eq_self_iff]
    intro c hc
    obtain ⟨-, h2, h3, h4⟩ := isHexChar_ne c (hhex c hc)
    simp [h2, h3, h4]
  rw [htake]

/-- C9 witness: the round trip evaluated at the config with database id
`abc123`. -/
theorem c9_dsn_roundtrip_witness :
    ParseDSN (FormatDSN ⟨"abc123".toList⟩) = ⟨"abc123".toList⟩ :=
  (c9_dsn_roundtrip ⟨"abc123".toList⟩ (by decide) (by decide)).1

/-- Every nonce the miner delivers satisfies the difficulty constraint,
and its hash is computed over `data ‖ nonce_bytes`. -/
theorem computeBlockNonce_spec (hashFn : List Nat → List Nat) (data : List Nat)
    (difficulty : Nat) :
    ∀ (fuel start n : Nat) (h : List Nat),
      computeBlockNonce hashFn data difficulty fuel start = some (n, h) →
      h = hashFn (data ++ nonceBytes n) ∧ difficulty ≤ leadingZeroBits h
  | 0, start, n, h => by
    intro hc
    simp [computeBlockNonce] at hc
  | fuel + 1, start, n, h => by
    intro hc
    simp only [computeBlockNonce] at hc
    by_cases hd : difficulty ≤ leadingZeroBits (hashFn (data ++ nonceBytes start))
    · rw [if_pos hd, Option.some_inj, Prod.mk.injEq] at hc
      rw [← hc.1, ← hc.2]
      exact ⟨rfl, hd⟩
    · rw [if_neg hd] at hc
      exact computeBlockNonce_spec hashFn data difficulty fuel (start + 1) n h hc

/-- C5: every database id the generator returns is the hex of a hash
whose preimage is the requester's raw node id followed by the found
nonce's bytes, that hash has at least 4 leading zero bits (the difficulty
the generator mines at), and the id is not a key of the service map at
the moment of return. -/
theorem c5_database_id_generation (hashFn : List Nat → List Nat)
    (serviceMapKeys : List String) (reqNodeID : List Nat) (mineFuel : Nat) :
    ∀ (fuel start : Nat) (dbID : String),
      generateDatabaseID hashFn serviceMapKeys reqNodeID mineFuel fuel start
          = some dbID →
      (∃ nonce, dbID = hashToHex (hashFn (reqNodeID ++ nonceBytes nonce))
        ∧ 4 ≤ leadingZeroBits (hashFn (reqNodeID ++ nonceBytes nonce)))
      ∧ dbID ∉ serviceMapKeys
  | 0, start, dbID => by
    intro hg
    simp [generateDatabaseID] at hg
  | fuel + 1, start, dbID => by
    intro hg
    cases hm : computeBlockNonce hashFn reqNodeID 4 mineFuel start with
    | none =>
      simp only [generateDatabaseID, hm] at hg
      exact nomatch hg
    | some p =>
      obtain ⟨n, h⟩ := p
      simp only [generateDatabaseID, hm] at hg
      by_cases hk : hashToHex h ∈ serviceMapKeys
      · rw [if_pos (decide_eq_true hk)] at hg
        exact c5_database_id_generation hashFn serviceMapKeys reqNodeID mineFuel
          fuel (n + 1) dbID hg
      · rw [if_neg (by simpa using hk), Option.some_inj] at hg
        obtain ⟨hh, hzero⟩ :=
          computeBlockNonce_spec hashFn reqNodeID 4 mineFuel start n h hm
        exact ⟨⟨n, by rw [← hg, hh], by rw [← hh]; exact hzero⟩, hg ▸ hk⟩

/-- C5 witness: with an all-zero hash function the first nonce is
accepted and the resulting id is fresh for a service map holding one
other key. -/
theorem c5_database_id_generation_witness :
    (∃ nonce, hashToHex (List.replicate 32 0)
        = hashToHex ((fun _ => List.replicate 32 0) ([5] ++ nonceBytes nonce))
      ∧ 4 ≤ leadingZeroBits ((fun _ => List.replicate 32 0) ([5] ++ nonceBytes nonce)))
    ∧ hashToHex (List.replicate 32 0) ∉ ["deadbeef"] :=
  c5_database_id_generation (fun _ => List.replicate 32 0) ["deadbeef"] [5] 1 1 0
    (hashToHex (List.replicate 32 0)) rfl

/-- The metric table of the allocation scenarios: five miners with
free-memory 4, 8, 6, 2 and 1 units (ring order puts the 4-unit node
first). -/
def metricTable : List (String × MetricMap) :=
  [("n4", [("node_memory_MemFree_bytes", some (.gauge 4))]),
   ("n8", [("node_memory_MemFree_bytes", some (.gauge 8))]),
   ("n6", [("node_memory_MemFree_bytes", some (.gauge 6))]),
   ("n2", [("node_memory_MemFree_bytes", some (.gauge 2))]),
   ("n1", [("node_memory_MemFree_bytes", some (.gauge 1))])]

/-- The five ring nodes of the allocation scenarios, in ring (consistent
hash distance) order; the consistent-hash ring orders by hash distance,
not by free memory. -/
def ringNodes : List Node :=
  [⟨"n4", 0⟩, ⟨"n8", 0⟩, ⟨"n6", 0⟩, ⟨"n2", 0⟩, ⟨"n1", 0⟩]

/-- The allocation environment of scenario S1: the ring query returns the
nearest `range` of the five nodes; the metric map serves each queried id
from `metricTable`. -/
def envS1 : DBServiceEnv where
  allocationRounds := 3
  includeBPNodesForAllocation := false
  bpNodes := []
  getNeighbors := fun range => ringNodes.take range
  getMetrics := fun ids =>
    ids.filterMap (fun i => (metricTable.lookup i).map (fun m => (i, m)))

/-- C2: in scenario S1 (metrics 8G/6G/4G/2G/1G, `N = 3`, `Memory = 3G`)
the allocation succeeds with term 1, but `buildPeers` rebuilds the server
list by filtering the RING result, so `Peers.Servers` is in ring order
and the leader is the 4-unit node — the accepted node nearest on the
ring — although the 8-unit node was accepted: the code contradicts its
own comment that the first server is the head of the memory-sorted
list. -/
theorem c2_leader_is_ring_first_not_max_memory :
    (allocateNodes envS1 0 ⟨3, 3⟩).1
        = .ok ⟨1, some ⟨.leader, "n4", 0⟩,
            [some ⟨.leader, "n4", 0⟩, some ⟨.follower, "n8", 0⟩,
              some ⟨.follower, "n6", 0⟩]⟩
    ∧ (⟨"n8", 8⟩ : AllocatedNode) ∈ acceptedNodes 3 (envS1.getMetrics ["n4", "n8", "n6"])
    ∧ (4 : Nat) < 8 ∧ "n4" ≠ "n8" := by
  decide

/-- Unfolding equation for one step of the accepted-candidate
projection. -/
theorem acceptedNodes_cons (memory : Nat) (nodeID : String) (m : MetricMap)
    (rest : List (String × MetricMap)) :
    acceptedNodes memory ((nodeID, m) :: rest)
      = match getMetric m MetricKeyFreeMemory with
        | .error _ => acceptedNodes memory rest
        | .ok v =>
          if memory < v then ⟨nodeID, v⟩ :: acceptedNodes memory rest
          else acceptedNodes memory rest := rfl

/-- The accepted list of the metric loop is the accumulator followed by
the accepted candidates: the acceptance decision never reads the
exclusion set. -/
theorem processCandidates_alloc_eq (memory : Nat) :
    ∀ (ms : List (String × MetricMap)) (excl : List String)
      (alloc : List AllocatedNode),
      (processCandidates memory ms excl alloc).2 = alloc ++ acceptedNodes memory ms
  | [], excl, alloc => by simp [processCandidates, acceptedNodes]
  | (nodeID, m) :: rest, excl, alloc => by
    cases hget : getMetric m MetricKeyFreeMemory with
    | error e =>
      simp only [processCandidates_cons, acceptedNodes_cons, hget]
      exact processCandidates_alloc_eq memory rest (nodeID :: excl) alloc
    | ok v =>
      simp only [processCandidates_cons, acceptedNodes_cons, hget]
      by_cases hlt : memory < v
      · rw [if_pos hlt, if_pos hlt]
        refine (processCandidates_alloc_eq memory rest excl
          (alloc ++ [⟨nodeID, v⟩])).trans ?_
        simp
      · rw [if_neg hlt, if_neg hlt]
        exact processCandidates_alloc_eq memory rest (nodeID :: excl) alloc

/-- The ids of the accepted candidates form a sublist of the metric-map
keys. -/
theorem acceptedNodes_ids_sublist (memory : Nat) :
    ∀ ms : List (String × MetricMap),
      ((acceptedNodes memory ms).map (·.nodeID)).Sublist (ms.map (·.1))
  | [] => by simp [acceptedNodes]
  | (nodeID, m) :: rest => by
    cases hget : getMetric m MetricKeyFreeMemory with
    | error e =>
      simp only [acceptedNodes_cons, hget]
      exact (acceptedNodes_ids_sublist memory rest).cons nodeID
    | ok v =>
      simp only [acceptedNodes_cons, hget]
      by_cases hlt : memory < v
      · rw [if_pos hlt]
        simpa using (acceptedNodes_ids_sublist memory rest).cons₂ nodeID
      · rw [if_neg hlt]
        exact (acceptedNodes_ids_sublist memory rest).cons nodeID

/-- Keys of a lookup-backed association list are a sublist of the queried
ids. -/
theorem filterMap_lookup_keys_sublist {β : Type} (g : String → Option β) :
    ∀ ids : List String,
      ((ids.filterMap (fun i => (g i).map (fun m => (i, m)))).map (·.1)).Sublist ids
  | [] => by simp
  | i :: rest => by
    cases hgi : g i with
    | none =>
      simp only [List.filterMap_cons, hgi, Option.map_none]
      exact (filterMap_lookup_keys_sublist g rest).cons i
    | some m =>
      simp only [List.filterMap_cons, hgi, Option.map_some]
      simpa using (filterMap_lookup_keys_sublist g rest).cons₂ i

/-- Counting: filtering a duplicate-free node list by membership of the
id in a duplicate-free covered id list yields exactly one node per id. -/
theorem filter_length_of_nodup (nodes : List Node) (L : List String)
    (hL : L.Nodup) (hnodes : (nodes.map (·.id)).Nodup)
    (hsub : ∀ x ∈ L, x ∈ nodes.map (·.id)) :
    (nodes.filter (fun node => decide (node.id ∈ L))).length = L.length := by
  have h1 : (nodes.filter (fun node => decide (node.id ∈ L))).length
      = ((nodes.map (·.id)).filter (fun x => decide (x ∈ L))).length := by
    rw [List.filter_map, List.length_map]
    rfl
  have h2 : List.Perm ((nodes.map (·.id)).filter (fun x => decide (x ∈ L))) L := by
    rw [List.perm_ext_iff_of_nodup (hnodes.filter _) hL]
    intro a
    simp only [List.mem_filter, decide_eq_true_eq]
    exact ⟨fun h => h.2, fun h => ⟨hsub a h, h⟩⟩
  rw [h1, h2.length_eq]

/-- Structure of a built peer set: when the allocated ids are nonempty,
duplicate-free and all found among duplicate-free ring nodes, `buildPeers`
returns a peer set with the given term whose first server is the leader
(also recorded in the `Leader` field), whose remaining servers are
followers, and whose size is the number of allocated ids. -/
theorem buildPeers_spec (term : Nat) (nodes : List Node) (L : List String)
    (hne : L ≠ []) (hnd : L.Nodup) (hnodes : (nodes.map (·.id)).Nodup)
    (hsub : ∀ x ∈ L, x ∈ nodes.map (·.id)) :
    ∃ srv rest, buildPeers term nodes L = some ⟨term, some srv, some srv :: rest⟩
      ∧ srv.role = .leader
      ∧ (∀ os ∈ rest, ∃ s', os = some s' ∧ s'.role = .follower)
      ∧ (some srv :: rest).length = L.length := by
  have hflen := filter_length_of_nodup nodes L hnd hnodes hsub
  cases hal : nodes.filter (fun node => decide (node.id ∈ L)) with
  | nil =>
    rw [hal] at hflen
    exact absurd (List.length_eq_zero.mp hflen.symm) hne
  | cons a as =>
    rw [hal] at hflen
    simp only [buildPeers, hal]
    rw [if_neg (by rw [← hflen]; exact Nat.lt_irrefl _)]
    rw [show L.length - (a :: as).length = 0 by rw [← hflen]; exact Nat.sub_self _]
    simp only [List.replicate_zero, List.append_nil, List.map_cons]
    refine ⟨⟨.leader, a.id, a.pubKey⟩,
      as.map (fun node => some ⟨.follower, node.id, node.pubKey⟩), rfl, rfl,
      ?_, ?_⟩
    · intro os hos
      obtain ⟨node, -, rfl⟩ := List.mem_map.mp hos
      exact ⟨_, rfl, rfl⟩
    · rw [← hflen]
      simp

/-- The successful round of `allocateNodes`: sorting the accepted list by
free memory descending, truncating to `nodeCount` and building peers
yields a peer set of the requested term whose first server is the leader,
whose other servers are followers, and whose size is `nodeCount`. -/
theorem allocSuccess_spec (term nodeCount memory : Nat) (nodes : List Node)
    (metrics : List (String × MetricMap)) (excl : List String) (peers : Peers)
    (hnodes : (nodes.map (·.id)).Nodup)
    (hkeysnd : (metrics.map (·.1)).Nodup)
    (hkeyssub : ∀ k ∈ metrics.map (·.1), k ∈ nodes.map (·.id))
    (hn : nodeCount ≠ 0)
    (h2 : nodeCount ≤ (processCandidates memory metrics excl []).2.length)
    (h : (match buildPeers term nodes
        ((((processCandidates memory metrics excl []).2.insertionSort
            (fun a b => b.memoryMetric ≤ a.memoryMetric)).take nodeCount).map
          (·.nodeID)) with
      | some p => Except.ok p
      | none => Except.error Err.panicked) = .ok peers) :
    peers.term = term
    ∧ peers.servers.length = nodeCount
    ∧ ∃ srv rest, peers.leader = some srv ∧ peers.servers = some srv :: rest
        ∧ srv.role = .leader
        ∧ ∀ os ∈ rest, ∃ s', os = some s' ∧ s'.role = .follower := by
  have hacc : (processCandidates memory metrics excl []).2
      = acceptedNodes memory metrics := by
    simpa using processCandidates_alloc_eq memory metrics excl []
  have haccnd : ((processCandidates memory metrics excl []).2.map
      (·.nodeID)).Nodup := by
    rw [hacc]
    exact List.Nodup.sublist (acceptedNodes_ids_sublist memory metrics) hkeysnd
  have haccids : ∀ x ∈ (processCandidates memory metrics excl []).2.map (·.nodeID),
      x ∈ nodes.map (·.id) := by
    intro x hx
    rw [hacc] at hx
    exact hkeyssub x ((acceptedNodes_ids_sublist memory metrics).subset hx)
  generalize halloc : (processCandidates memory metrics excl []).2 = alloc
    at h h2 haccnd haccids
  have hperm := List.perm_insertionSort
    (fun a b : AllocatedNode => b.memoryMetric ≤ a.memoryMetric) alloc
  have hpermids := hperm.map (fun x : AllocatedNode => x.nodeID)
  have hsortnd := hpermids.symm.nodup haccnd
  have hLeq : ((alloc.insertionSort
      (fun a b => b.memoryMetric ≤ a.memoryMetric)).take nodeCount).map (·.nodeID)
      = ((alloc.insertionSort
        (fun a b => b.memoryMetric ≤ a.memoryMetric)).map (·.nodeID)).take
          nodeCount :=
    List.map_take _ _ _
  have hLnd : (((alloc.insertionSort
      (fun a b => b.memoryMetric ≤ a.memoryMetric)).take nodeCount).map
        (·.nodeID)).Nodup := by
    rw [hLeq]
    exact List.Nodup.sublist (List.take_sublist _ _) hsortnd
  have hsortlen : (alloc.insertionSort
      (fun a b => b.memoryMetric ≤ a.memoryMetric)).length = alloc.length :=
    List.length_insertionSort _ _
  have hLlen : (((alloc.insertionSort
      (fun a b => b.memoryMetric ≤ a.memoryMetric)).take nodeCount).map
        (·.nodeID)).length = nodeCount := by
    rw [List.length_map, List.length_take, hsortlen]
    exact Nat.min_eq_left h2
  have hLne : ((alloc.insertionSort
      (fun a b => b.memoryMetric ≤ a.memoryMetric)).take nodeCount).map
        (·.nodeID) ≠ [] := by
    intro hnil
    rw [hnil] at hLlen
    exact hn (by simpa using hLlen.symm)
  have hLsub : ∀ x ∈ ((alloc.insertionSort
      (fun a b => b.memoryMetric ≤ a.memoryMetric)).take nodeCount).map
        (·.nodeID), x ∈ nodes.map (·.id) := by
    intro x hx
    rw [hLeq] at hx
    exact haccids x (hpermids.mem_iff.mp (List.take_subset _ _ hx))
  obtain ⟨srv, rest, hbp, hrole, hfoll, hlen⟩ :=
    buildPeers_spec term nodes _ hLne hLnd hnodes hLsub
  simp only [hbp] at h
  rw [Except.ok.injEq] at h
  subst h
  exact ⟨rfl, hlen.trans hLlen, srv, rest, rfl, rfl, hrole, hfoll⟩

/-- Every successful allocation round yields a peer set with the
requested term, exactly `nodeCount` servers, and a leading leader
followed by followers — provided the ring returns duplicate-free node
lists and the metric map returns duplicate-free keys drawn from the
queried ids. -/
theorem allocRounds_ok_spec (s : DBServiceEnv) (memory nodeCount term : Nat)
    (hring : ∀ range, ((s.getNeighbors range).map (·.id)).Nodup)
    (hmk : ∀ ids : List String, ids.Nodup →
      ((s.getMetrics ids).map (·.1)).Nodup
      ∧ ∀ k ∈ (s.getMetrics ids).map (·.1), k ∈ ids)
    (hn : nodeCount ≠ 0) :
    ∀ (roundsLeft curRange : Nat) (excl : List String) (peers : Peers),
      (allocRounds s memory nodeCount term roundsLeft curRange excl).1 = .ok peers →
      peers.term = term
      ∧ peers.servers.length = nodeCount
      ∧ ∃ srv rest, peers.leader = some srv ∧ peers.servers = some srv :: rest
          ∧ srv.role = .leader
          ∧ ∀ os ∈ rest, ∃ s', os = some s' ∧ s'.role = .follower
  | 0, curRange, excl, peers => by
    intro h
    simp [allocRounds] at h
  | roundsLeft + 1, curRange, excl, peers => by
    intro h
    simp only [allocRounds] at h
    by_cases h1 : ((((s.getNeighbors curRange).filter
        (fun n => decide (n.id ∉ excl))).map (·.id)).length < nodeCount)
    · rw [if_pos h1] at h
      exact allocRounds_ok_spec s memory nodeCount term hring hmk hn
        roundsLeft curRange excl peers h
    · rw [if_neg h1] at h
      have hids_sub : (((s.getNeighbors curRange).filter
          (fun n => decide (n.id ∉ excl))).map (·.id)).Sublist
            ((s.getNeighbors curRange).map (·.id)) :=
        List.Sublist.map _ (List.filter_sublist _)
      have hidsnd := List.Nodup.sublist hids_sub (hring curRange)
      obtain ⟨hkeysnd, hkeyssub⟩ := hmk _ hidsnd
      by_cases h2 : nodeCount ≤ (processCandidates memory
          (s.getMetrics (((s.getNeighbors curRange).filter
            (fun n => decide (n.id ∉ excl))).map (·.id))) excl []).2.length
      · rw [if_pos h2] at h
        exact allocSuccess_spec term nodeCount memory (s.getNeighbors curRange)
          (s.getMetrics (((s.getNeighbors curRange).filter
            (fun n => decide (n.id ∉ excl))).map (·.id))) excl peers
          (hring curRange) hkeysnd
          (fun k hk => hids_sub.subset (hkeyssub k hk)) hn h2 h
      · rw [if_neg h2] at h
        exact allocRounds_ok_spec s memory nodeCount term hring hmk hn
          roundsLeft (curRange + nodeCount) _ peers h

/-- Whether a servers-slice entry is a non-nil server holding the Leader
role. -/
def isLeaderEntry : Option Server → Bool
  | some srv => decide (srv.role = ServerRole.leader)
  | none => false

/-- C4: a successful `CreateDatabase` returns an instance whose peers
have exactly `ResourceMeta.Node` servers, a first server that is the
unique leader (also recorded in the `Leader` field), and term
`0 + 1 = 1`, the term following the initial term of a freshly mined
database id — provided the ring returns duplicate-free node lists and
the metric map returns duplicate-free keys drawn from the queried
ids. -/
theorem c4_create_database_peers (env : CreateEnv) (inst : ServiceInstance)
    (hring : ∀ range, ((env.svc.getNeighbors range).map (·.id)).Nodup)
    (hmk : ∀ ids : List String, ids.Nodup →
      ((env.svc.getMetrics ids).map (·.1)).Nodup
      ∧ ∀ k ∈ (env.svc.getMetrics ids).map (·.1), k ∈ ids)
    (hok : CreateDatabase env = some (.ok inst)) :
    inst.peers.term = 1
    ∧ inst.peers.servers.length = env.resourceMeta.node
    ∧ (∃ srv rest, inst.peers.leader = some srv
        ∧ inst.peers.servers = some srv :: rest
        ∧ srv.role = .leader
        ∧ ∀ os ∈ rest, ∃ s', os = some s' ∧ s'.role = .follower)
    ∧ inst.peers.servers.countP isLeaderEntry = 1 := by
  have halloc : (allocateNodes env.svc 0 env.resourceMeta).1 = .ok inst.peers := by
    unfold CreateDatabase at hok
    cases hv : env.verify with
    | some e => simp only [hv] at hok; exact nomatch hok
    | none =>
    simp only [hv] at hok
    cases hdb : env.generatedDBID with
    | error e => simp only [hdb] at hok; exact nomatch hok
    | ok dbID =>
    simp only [hdb] at hok
    cases hal : (allocateNodes env.svc 0 env.resourceMeta).1 with
    | error e => simp only [hal] at hok; exact nomatch hok
    | ok peers =>
    simp only [hal] at hok
    cases hg : env.genesisBlock with
    | some e => simp only [hg] at hok; exact nomatch hok
    | none =>
    simp only [hg] at hok
    cases hpk : env.getLocalPrivKey with
    | some e => simp only [hpk] at hok; exact nomatch hok
    | none =>
    simp only [hpk] at hok
    cases hs1 : env.signInitReq with
    | some e => simp only [hs1] at hok; exact nomatch hok
    | none =>
    simp only [hs1] at hok
    cases hs2 : env.signRollbackReq with
    | some e => simp only [hs2] at hok; exact nomatch hok
    | none =>
    simp only [hs2] at hok
    cases hpn : peersToNodes (some peers) with
    | none => simp only [hpn] at hok; exact nomatch hok
    | some nodes =>
    simp only [hpn] at hok
    cases hbs : (batchSendSvcReq nodes env.deployArrivals env.rollbackArrivals).1 with
    | some e => simp only [hbs] at hok; exact nomatch hok
    | none =>
    simp only [hbs] at hok
    cases hset : env.serviceMapSet with
    | some e => simp only [hset] at hok; exact nomatch hok
    | none =>
    simp only [hset] at hok
    cases hsr : env.signResp with
    | some e => simp only [hsr] at hok; exact nomatch hok
    | none =>
    simp only [hsr] at hok
    rw [Option.some_inj, Except.ok.injEq] at hok
    rw [← hok]
  have hn : env.resourceMeta.node ≠ 0 := by
    intro h0
    rw [show (allocateNodes env.svc 0 env.resourceMeta)
        = (.error .errDatabaseAllocation, []) by
      unfold allocateNodes
      rw [if_pos h0]] at halloc
    exact nomatch halloc
  have halloc' : (allocRounds env.svc env.resourceMeta.memory env.resourceMeta.node
      (0 + 1) env.svc.allocationRounds env.resourceMeta.node
      (if env.svc.includeBPNodesForAllocation then [] else env.svc.bpNodes)).1
        = .ok inst.peers := by
    rw [show allocRounds env.svc env.resourceMeta.memory env.resourceMeta.node
        (0 + 1) env.svc.allocationRounds env.resourceMeta.node
        (if env.svc.includeBPNodesForAllocation then [] else env.svc.bpNodes)
        = allocateNodes env.svc 0 env.resourceMeta by
      unfold allocateNodes
      rw [if_neg hn]]
    exact halloc
  obtain ⟨hterm, hlen, srv, rest, hleader, hservers, hrole, hfoll⟩ :=
    allocRounds_ok_spec env.svc env.resourceMeta.memory env.resourceMeta.node
      (0 + 1) hring hmk hn env.svc.allocationRounds env.resourceMeta.node
      (if env.svc.includeBPNodesForAllocation then [] else env.svc.bpNodes)
      inst.peers halloc'
  refine ⟨hterm, hlen, ⟨srv, rest, hleader, hservers, hrole, hfoll⟩, ?_⟩
  rw [hservers, List.countP_cons]
  have hz : rest.countP isLeaderEntry = 0 := by
    rw [List.countP_eq_zero]
    intro os hos
    obtain ⟨s', rfl, hs'⟩ := hfoll os hos
    simp [isLeaderEntry, hs']
  rw [hz]
  simp [isLeaderEntry, hrole]

/-- The create environment of the C4 witness: scenario S1 with every
collaborator call succeeding. -/
def createEnvW : CreateEnv where
  verify := none
  generatedDBID := .ok "db1"
  svc := envS1
  resourceMeta := ⟨3, 3⟩
  genesisBlock := none
  getLocalPrivKey := none
  signInitReq := none
  signRollbackReq := none
  deployArrivals := [none, none, none]
  rollbackArrivals := [none, none, none]
  serviceMapSet := none
  signResp := none

/-- The instance the C4 witness environment produces. -/
def instW : ServiceInstance :=
  ⟨"db1", ⟨1, some ⟨.leader, "n4", 0⟩,
    [some ⟨.leader, "n4", 0⟩, some ⟨.follower, "n8", 0⟩,
      some ⟨.follower, "n6", 0⟩]⟩, ⟨3, 3⟩⟩

/-- C4 witness: the successful creation in scenario S1, where the
returned peers have term 1, three servers and one leading leader. -/
theorem c4_create_database_peers_witness :
    instW.peers.term = 1
    ∧ instW.peers.servers.length = createEnvW.resourceMeta.node
    ∧ (∃ srv rest, instW.peers.leader = some srv
        ∧ instW.peers.servers = some srv :: rest
        ∧ srv.role = .leader
        ∧ ∀ os ∈ rest, ∃ s', os = some s' ∧ s'.role = .follower)
    ∧ instW.peers.servers.countP isLeaderEntry = 1 :=
  c4_create_database_peers createEnvW instW
    (fun range => List.Nodup.sublist
      (List.Sublist.map (·.id) (List.take_sublist range ringNodes)) (by decide))
    (fun ids hnd =>
      ⟨List.Nodup.sublist
        (filterMap_lookup_keys_sublist (fun i => metricTable.lookup i) ids) hnd,
       fun k hk =>
        (filterMap_lookup_keys_sublist (fun i => metricTable.lookup i) ids).subset hk⟩)
    (by decide)

end CSQL

